import Mathlib

/-!
Shallow embedding of the `AsyncQueue` implementation (`class AsyncQueue` and
`class QueueClearError` from the async-queue module of this repository).

Conventions of the embedding:

* The JS array `this.queue` is stored REVERSED: the head of the Lean list is
  the back of the JS array, i.e. the element `this.queue.pop()` removes next.
  Consequently `array.push(e)` followed by the swap loop of
  `_insertWithPriority` (which moves `e` toward the JS front past every
  element whose `priority >= e.priority`) becomes `insertWithPriority` below,
  and `pop()` takes the head.
* `priority` is `Option Int`: `none` is JavaScript `undefined` — the code
  destructures `const { priority } = options` WITHOUT a default, so an add
  with no priority stores `undefined`.  JS `a >= b` with `undefined` on
  either side is a NaN comparison and yields `false`; `jsGe` mirrors that.
* Promise plumbing: settling an entry's internal promise records its
  `Outcome` and appends the entry's id to `finalizers`, the FIFO microtask
  list of pending `.finally` handlers from `add`; `runFinalizer` executes one
  such handler (`this.running--; this._checkEmpty(); this._process();`).
  The `.catch` handler of `add` (`if (!(error instanceof QueueClearError))
  throw error`) is `catchClear`: it turns the outcome of the internal promise
  into the outcome the caller of `add` observes.
* `executing` is ghost state: the ids of tasks whose function `task()` has
  actually been started by `_process` and has not yet settled.  `idleLog`
  records, for every firing of the empty callbacks in `_checkEmpty`, the
  snapshot of `executing` at that moment.
* Task failures carry a `Nat` error code (`Err.taskErr`); `QueueClearError`
  is `Err.clearErr`.  The module does not export `QueueClearError`, so a
  user task cannot fail with an instance of it.
* All operations are total Lean functions: the queue's own bookkeeping never
  throws.
-/

namespace AsyncQueue

/-- A JS value a promise can fulfill with: `undefined` or an ordinary value. -/
inductive Value where
  | undef : Value
  | val : Nat → Value
deriving DecidableEq, Repr

/-- An error: `new QueueClearError()` or an ordinary task error (code `n`). -/
inductive Err where
  | clearErr : Err
  | taskErr : Nat → Err
deriving DecidableEq, Repr

/-- Settlement of a promise: fulfilled with a value or rejected with an error. -/
inductive Outcome where
  | fulfilled : Value → Outcome
  | rejected : Err → Outcome
deriving DecidableEq, Repr

/-- A pending entry of `this.queue`: `{ task, priority, resolve, reject }`.
The task function and the resolve/reject pair are identified by `id`;
`priority` is `none` when `options.priority` was `undefined`. -/
structure Entry where
  id : Nat
  priority : Option Int
deriving DecidableEq, Repr

/-- JavaScript `a >= b` on priorities: `false` whenever either side is
`undefined` (NaN comparison), otherwise numeric `≥`. -/
def jsGe : Option Int → Option Int → Bool
  | some a, some b => a ≥ b
  | _, _ => false

/-- `_insertWithPriority(entry)`: `this.queue.push(entry)` then swap the new
entry toward the JS front while the element before it satisfies
`this.queue[i].priority >= this.queue[i+1].priority`.  On the reversed list
(head = JS back) the new entry starts at the head and moves past each `x`
with `jsGe x.priority e.priority`, stopping at the first failure. -/
def insertWithPriority (e : Entry) : List Entry → List Entry
  | [] => [e]
  | x :: xs =>
    if jsGe x.priority e.priority then x :: insertWithPriority e xs
    else e :: x :: xs

/-- `instanceof QueueClearError`. -/
def isQueueClearError : Err → Bool
  | .clearErr => true
  | .taskErr _ => false

/-- The `.catch((error) => { if (!(error instanceof QueueClearError)) throw
error; })` stage of the promise chain built in `add`: a `QueueClearError`
rejection is swallowed (the handler returns `undefined`, so the chain
fulfills with `undefined`); any other rejection is rethrown; fulfillments
pass through.  The subsequent `.finally` stage passes the outcome through
unchanged, so this is exactly the outcome the caller of `add` observes. -/
def catchClear : Outcome → Outcome
  | .fulfilled v => .fulfilled v
  | .rejected e => if isQueueClearError e then .fulfilled .undef else .rejected e

/-- The whole mutable state of an `AsyncQueue` instance, plus the ghost
fields `executing`, `finalizers`, `outcomes`, `idleLog`, `nextId` (see the
file header). -/
structure QState where
  concurrency : Int
  autoStart : Bool
  queue : List Entry
  running : Int
  paused : Bool
  executing : List Nat
  finalizers : List Nat
  outcomes : List (Nat × Outcome)
  idleLog : List (List Nat)
  nextId : Nat
deriving DecidableEq, Repr

/-- The constructor.  `this.concurrency = options.concurrency || 1`: with no
option the limit is 1, with `0` (falsy) the limit is 1, any other integer —
including a negative one — is stored verbatim.
`this.autoStart = options.autoStart !== false`. -/
def mkQueue (concurrency : Option Int) (autoStart : Option Bool) : QState :=
  { concurrency :=
      match concurrency with
      | none => 1
      | some c => if c = 0 then 1 else c
    autoStart := autoStart ≠ some false
    queue := []
    running := 0
    paused := false
    executing := []
    finalizers := []
    outcomes := []
    idleLog := []
    nextId := 0 }

/-- `_process()`: return if `running >= concurrency`, or paused, or the queue
is empty; otherwise `pop()` the entry at the JS back (our head), increment
`running` and start its task (`task().then(resolve).catch(reject)`), which
adds the id to the ghost `executing` set. -/
def process (s : QState) : QState :=
  if s.running ≥ s.concurrency ∨ s.paused then s
  else
    match s.queue with
    | [] => s
    | e :: rest =>
      { s with queue := rest, running := s.running + 1,
               executing := e.id :: s.executing }

/-- `_checkEmpty()`: if `queue.length === 0 && running === 0`, invoke every
empty callback; the ghost log records the `executing` snapshot of the firing. -/
def checkEmpty (s : QState) : QState :=
  if s.queue = [] ∧ s.running = 0 then { s with idleLog := s.executing :: s.idleLog }
  else s

/-- `add(task, options)`: build the promise chain, then
`this._insertWithPriority({ task, priority, resolve, reject })` with
`const { priority } = options` (NO default — `none` when absent), then
`if (this.autoStart) this._process()`.  The fresh entry gets id `s.nextId`;
the promise returned to the caller is that id's `catchClear`-translated
outcome. -/
def add (s : QState) (priority : Option Int) : QState :=
  let s1 := { s with queue := insertWithPriority { id := s.nextId, priority := priority } s.queue,
                     nextId := s.nextId + 1 }
  if s.autoStart then process s1 else s1

/-- `start()`: `this.paused = false; this._process();`. -/
def start (s : QState) : QState :=
  process { s with paused := false }

/-- `pause()`: `this.paused = true;`. -/
def pause (s : QState) : QState :=
  { s with paused := true }

/-- `clear()`: `this.queue.forEach(({ reject }) => reject(new
QueueClearError())); this.queue = [];`.  Each pending entry's internal
promise settles rejected with `QueueClearError` (in JS iteration order,
i.e. the reverse of our list), which schedules its `.finally` handler as a
microtask; then the queue is emptied. -/
def clear (s : QState) : QState :=
  { s with
    outcomes := s.outcomes ++ s.queue.reverse.map (fun e => (e.id, Outcome.rejected Err.clearErr)),
    finalizers := s.finalizers ++ s.queue.reverse.map Entry.id,
    queue := [] }

/-- How a task function's own promise settles: success with a value, or
failure with an ordinary error code (the `QueueClearError` class is not
exported, so a task cannot fail with an instance of it). -/
inductive TaskResult where
  | success : Value → TaskResult
  | failure : Nat → TaskResult
deriving DecidableEq, Repr

/-- Outcome of the internal promise when the task function itself settles:
`task().then(resolve).catch(reject)`. -/
def settleOutcome : TaskResult → Outcome
  | .success v => .fulfilled v
  | .failure n => .rejected (.taskErr n)

/-- The task function of `id` (which must be executing) returns: its result
settles the entry's internal promise and schedules the `.finally` handler. -/
def settleTask (s : QState) (id : Nat) (r : TaskResult) : QState :=
  { s with executing := s.executing.erase id,
           outcomes := s.outcomes ++ [(id, settleOutcome r)],
           finalizers := s.finalizers ++ [id] }

/-- Run the oldest pending `.finally` handler from `add`'s chain:
`this.running--; this._checkEmpty(); this._process();`. -/
def runFinalizer (s : QState) : QState :=
  match s.finalizers with
  | [] => s
  | _ :: rest => process (checkEmpty { s with finalizers := rest, running := s.running - 1 })

/-- `get size()`: number of pending tasks. -/
def size (s : QState) : Nat :=
  s.queue.length

/-- `get isPaused()`. -/
def isPaused (s : QState) : Bool :=
  s.paused

/-- The states an `AsyncQueue` can reach: constructed with any options, then
any interleaving of the public operations, task settlements (only of tasks
actually executing) and microtask runs of pending settlement handlers. -/
inductive Reachable : QState → Prop where
  | init (c : Option Int) (a : Option Bool) : Reachable (mkQueue c a)
  | add {s : QState} (p : Option Int) : Reachable s → Reachable (add s p)
  | start {s : QState} : Reachable s → Reachable (start s)
  | pause {s : QState} : Reachable s → Reachable (pause s)
  | clear {s : QState} : Reachable s → Reachable (clear s)
  | settle {s : QState} (id : Nat) (r : TaskResult) (h : id ∈ s.executing) :
      Reachable s → Reachable (settleTask s id r)
  | finalize {s : QState} : Reachable s → Reachable (runFinalizer s)

/-- Helper: `(process s).paused = s.paused` — the scheduling step never
touches the paused flag. -/
theorem process_paused (s : QState) : (process s).paused = s.paused := by
  unfold process
  split
  · rfl
  · split <;> rfl

/-- Helper: overwriting `paused` with its current value is the identity. -/
theorem set_paused_eq (s : QState) (h : s.paused = false) :
    ({ s with paused := false } : QState) = s := by
  cases s
  simp_all

/-- Helper: `_process` does nothing when the running count has reached the
concurrency limit or nothing is pending. -/
theorem process_of_blocked (s : QState)
    (h : s.running ≥ s.concurrency ∨ s.queue = []) : process s = s := by
  by_cases hc : s.running ≥ s.concurrency ∨ s.paused
  · simp [process, hc]
  · rcases h with h | h
    · exact absurd (Or.inl h) hc
    · simp [process, hc, h]

/-- Helper: inserting an entry whose priority equals the (explicit, numeric)
priority of every entry already queued appends it at the far end of the
(reversed) list — i.e. at the JS front, dequeued last among them. -/
theorem insertWithPriority_equal_append (p : Int) (e : Entry) (l : List Entry)
    (hl : ∀ x ∈ l, x.priority = some p) (he : e.priority = some p) :
    insertWithPriority e l = l ++ [e] := by
  induction l with
  | nil => rfl
  | cons x xs ih =>
    have hx : x.priority = some p := hl x (List.mem_cons_self x xs)
    have hge : jsGe x.priority e.priority = true := by simp [jsGe, hx, he]
    simp [insertWithPriority, hge,
      ih (fun y hy => hl y (List.mem_cons_of_mem x hy))]

/-- Helper: folding equal-priority insertions over any equal-priority
accumulator appends the new entries in submission order. -/
theorem foldl_insert_equal (p : Int) (ids : List Nat) :
    ∀ q : List Entry, (∀ x ∈ q, x.priority = some p) →
      ids.foldl (fun q i => insertWithPriority { id := i, priority := some p } q) q =
        q ++ ids.map (fun i => ({ id := i, priority := some p } : Entry)) := by
  induction ids with
  | nil => intro q _; simp
  | cons i rest ih =>
    intro q hq
    rw [List.foldl_cons, insertWithPriority_equal_append p _ q hq rfl, ih]
    · simp
    · intro x hx
      rcases List.mem_append.mp hx with h | h
      · exact hq x h
      · simp only [List.mem_singleton] at h
        rw [h]

end AsyncQueue

namespace AsyncQueue

/-- C1: the claim says `running` stays within `0 ≤ running ≤ N` under every
interleaving.  The code violates the lower bound: with limit 1, after
`pause(); add(T); clear()` the cleared entry's `.finally` handler decrements
`running` although its task never started, and the reachable state has
`running = -1`. -/
theorem C1_running_goes_negative :
    Reachable (runFinalizer (clear (add (pause (mkQueue (some 1) none)) none))) ∧
    (runFinalizer (clear (add (pause (mkQueue (some 1) none)) none))).running = -1 :=
  ⟨Reachable.finalize (Reachable.clear (Reachable.add none
      (Reachable.pause (Reachable.init (some 1) none)))),
   by decide⟩

/-- C2: `clear()` empties `pending` (`size = 0`), settles the internal
promise of every entry still pending rejected with the `QueueClearError`
(which `instanceof QueueClearError` distinguishes from every ordinary task
error), and leaves the currently executing tasks and the running count,
as read synchronously at the end of the call, untouched. -/
theorem C2_clear_settles_pending (s : QState) :
    size (clear s) = 0 ∧
    (∀ e ∈ s.queue, (e.id, Outcome.rejected Err.clearErr) ∈ (clear s).outcomes) ∧
    (clear s).executing = s.executing ∧
    (clear s).running = s.running ∧
    isQueueClearError Err.clearErr = true ∧
    (∀ n : Nat, isQueueClearError (Err.taskErr n) = false) := by
  refine ⟨rfl, ?_, rfl, rfl, rfl, fun _ => rfl⟩
  intro e he
  simp only [clear, List.mem_append, List.mem_map, List.mem_reverse]
  exact Or.inr ⟨e, he, rfl⟩

/-- Witness for C2 on a queue holding one pending entry. -/
theorem C2_clear_settles_pending_witness :
    size (clear (add (pause (mkQueue none none)) none)) = 0 ∧
    (0, Outcome.rejected Err.clearErr) ∈
      (clear (add (pause (mkQueue none none)) none)).outcomes :=
  ⟨(C2_clear_settles_pending (add (pause (mkQueue none none)) none)).1,
   (C2_clear_settles_pending (add (pause (mkQueue none none)) none)).2.1
     { id := 0, priority := none } (by decide)⟩

/-- C3: the claim says a task added without a priority behaves exactly as if
it had priority 0.  It does not: `add` never defaults `priority`, and the
JS comparison `5 >= undefined` is false, so after `pause(); add(A,
priority 5); add(B); start()` the no-priority task B (id 1) starts before
the priority-5 task A (id 0) — while an explicit priority 0 for B would let
A start first. -/
theorem C3_no_default_priority :
    (start (add (add (pause (mkQueue (some 1) none)) (some 5)) none)).executing = [1] ∧
    (start (add (add (pause (mkQueue (some 1) none)) (some 5)) (some 0))).executing = [0] ∧
    jsGe (some 5) none = false ∧
    jsGe (some 5) (some 0) = true := by
  decide

/-- C4: tasks submitted with equal explicit numeric priorities while nothing
can start accumulate in `pending` in exactly submission order: the head of
the (reversed) queue is the next entry `_process` pops, so dequeue order
equals submission order — the priority insertion is stable. -/
theorem C4_equal_priority_fifo (p : Int) (ids : List Nat) :
    ids.foldl (fun q i => insertWithPriority { id := i, priority := some p } q) [] =
      ids.map (fun i => ({ id := i, priority := some p } : Entry)) ∧
    (ids.foldl (fun q i => insertWithPriority { id := i, priority := some p } q)
        ([] : List Entry)).map Entry.id = ids := by
  have h := foldl_insert_equal p ids [] (by intro x hx; cases hx)
  rw [List.nil_append] at h
  refine ⟨h, ?_⟩
  rw [h]
  clear h
  induction ids with
  | nil => rfl
  | cons i rest ih =>
    simp only [List.map_cons, List.cons.injEq]
    exact ⟨trivial, ih⟩

/-- C5: the claim says the idle notification never fires while a submitted
task is still actually executing.  It does: with limit 1, task 0 running and
entry 1 pending, `clear()` rejects entry 1, whose `.finally` handler
decrements `running` to 0 and `_checkEmpty` fires the empty callbacks —
logged here with the snapshot `[0]` of tasks still executing. -/
theorem C5_idle_fires_during_execution :
    Reachable (runFinalizer (clear (add (add (mkQueue (some 1) none) none) none))) ∧
    (runFinalizer (clear (add (add (mkQueue (some 1) none) none) none))).idleLog = [[0]] ∧
    (runFinalizer (clear (add (add (mkQueue (some 1) none) none) none))).executing = [0] :=
  ⟨Reachable.finalize (Reachable.clear (Reachable.add none
      (Reachable.add none (Reachable.init (some 1) none)))),
   by decide, by decide⟩

/-- C6: the claim says `clear()` never changes `running`, even after the
settlement handlers of the cleared entries have run.  False: clearing two
pending never-started entries (limit 1, paused) leaves `running = 0` at the
call, but after both `.finally` handlers run the reachable state has
`running = -2` (the paused flag alone is preserved). -/
theorem C6_clear_handlers_change_running :
    (add (add (pause (mkQueue (some 1) none)) none) none).running = 0 ∧
    Reachable (runFinalizer (runFinalizer (clear
      (add (add (pause (mkQueue (some 1) none)) none) none)))) ∧
    (runFinalizer (runFinalizer (clear
      (add (add (pause (mkQueue (some 1) none)) none) none)))).running = -2 ∧
    (runFinalizer (runFinalizer (clear
      (add (add (pause (mkQueue (some 1) none)) none) none)))).paused = true :=
  ⟨by decide,
   Reachable.finalize (Reachable.finalize (Reachable.clear (Reachable.add none
      (Reachable.add none (Reachable.pause (Reachable.init (some 1) none)))))),
   by decide, by decide⟩

/-- C7: a task that fails with error code `n` settles only its own handle —
the caller of `add` sees exactly the rejection `taskErr n` (the `.catch`
stage rethrows every non-`QueueClearError`), the recorded outcomes of all
other tasks are unchanged, and the `.finally` handler keeps the queue
scheduling: with capacity free, not paused and an entry pending, that next
entry starts executing.  Every step is a total function: the bookkeeping
cannot throw. -/
theorem C7_task_failure_isolated (s : QState) (id n : Nat) (h : id ∈ s.executing) :
    catchClear (settleOutcome (TaskResult.failure n)) = Outcome.rejected (Err.taskErr n) ∧
    (settleTask s id (TaskResult.failure n)).outcomes =
      s.outcomes ++ [(id, Outcome.rejected (Err.taskErr n))] ∧
    (s.finalizers = [] → s.paused = false → s.running - 1 < s.concurrency →
      ∀ e q', s.queue = e :: q' →
        e.id ∈ (runFinalizer (settleTask s id (TaskResult.failure n))).executing) := by
  refine ⟨rfl, rfl, ?_⟩
  intro hf hp hc e q' hq
  have hguard : ¬(s.running - 1 ≥ s.concurrency) := by omega
  simp [runFinalizer, settleTask, checkEmpty, process, hf, hp, hq, hguard]

/-- Witness for C7: limit 1, task 0 executing and fails with code 42 while
entry 1 is pending; the caller's outcome for task 0 is the rejection 42 and
task 1 starts next. -/
theorem C7_task_failure_isolated_witness :
    catchClear (settleOutcome (TaskResult.failure 42)) = Outcome.rejected (Err.taskErr 42) ∧
    1 ∈ (runFinalizer (settleTask (add (add (mkQueue (some 1) none) none) none) 0
          (TaskResult.failure 42))).executing :=
  ⟨(C7_task_failure_isolated (add (add (mkQueue (some 1) none) none) none) 0 42
      (by decide)).1,
   (C7_task_failure_isolated (add (add (mkQueue (some 1) none) none) none) 0 42
      (by decide)).2.2 (by decide) (by decide) (by decide)
      { id := 1, priority := none } [] (by decide)⟩

/-- C8 counterexample: the claim says a non-positive concurrency limit makes
construction fail.  It does not fail: `options.concurrency || 1` silently
turns `0` into the default `1`, and a negative limit is stored verbatim —
and then defers the problem to first use: the task added to the `-5` queue
stays pending and never starts even with `autoStart`. -/
theorem C8_counterexample :
    (mkQueue (some 0) none).concurrency = 1 ∧
    (mkQueue (some (-5)) none).concurrency = -5 ∧
    (add (mkQueue (some (-5)) none) none).executing = [] ∧
    size (add (mkQueue (some (-5)) none) none) = 1 := by
  decide

/-- C8 amended: construction never fails; a missing or zero concurrency
option falls back to the default 1, a negative value `c` is stored verbatim,
and with a negative limit the problem only shows at use — the scheduling
step never starts a task (its capacity guard always blocks while
`running ≥ 0`). -/
theorem C8_amended (c : Int) (hc : c < 0) (s : QState)
    (hs : s.concurrency = c) (hr : 0 ≤ s.running) :
    (mkQueue none none).concurrency = 1 ∧
    (mkQueue (some 0) none).concurrency = 1 ∧
    (mkQueue (some c) none).concurrency = c ∧
    process s = s := by
  refine ⟨rfl, rfl, ?_, ?_⟩
  · have h0 : c ≠ 0 := by omega
    simp [mkQueue, h0]
  · have hge : s.running ≥ s.concurrency := by omega
    exact process_of_blocked s (Or.inl hge)

/-- Witness for C8 amended at `c = -5` and the queue holding one never-started
entry. -/
theorem C8_amended_witness :
    (mkQueue none none).concurrency = 1 ∧
    (mkQueue (some 0) none).concurrency = 1 ∧
    (mkQueue (some (-5)) none).concurrency = -5 ∧
    process (add (mkQueue (some (-5)) none) none) = add (mkQueue (some (-5)) none) none :=
  C8_amended (-5) (by decide) (add (mkQueue (some (-5)) none) none) (by decide) (by decide)

/-- C9 counterexample: the claim says `start()` is idempotent on every
state.  It is not: with limit 2, paused and two pending entries, the first
`start()` begins one task (each `_process` call starts at most one), and a
second immediate `start()` begins another — the two states differ. -/
theorem C9_counterexample :
    start (start (add (add (pause (mkQueue (some 2) none)) none) none)) ≠
      start (add (add (pause (mkQueue (some 2) none)) none) none) := by
  decide

/-- C9 amended: `start()` clears the paused flag and runs one scheduling
step, which starts at most one task; a second immediate `start()` changes
nothing exactly when, after the first call, no further task can start —
the capacity is saturated or nothing is pending.  Otherwise the second call
starts exactly the next pending entry: it dequeues it, increments `running`,
marks it executing — and the two states differ. -/
theorem C9_amended (s : QState) :
    ((start s).running ≥ (start s).concurrency ∨ (start s).queue = [] →
      start (start s) = start s) ∧
    (∀ e rest, (start s).running < (start s).concurrency →
      (start s).queue = e :: rest →
      start (start s) =
        { start s with queue := rest, running := (start s).running + 1,
                       executing := e.id :: (start s).executing } ∧
      start (start s) ≠ start s) := by
  have hp : (start s).paused = false := by
    rw [start, process_paused]
  have heta : ({ start s with paused := false } : QState) = start s :=
    set_paused_eq (start s) hp
  have hpp : start (start s) = process (start s) := by
    calc start (start s) = process { start s with paused := false } := rfl
      _ = process (start s) := by rw [heta]
  constructor
  · intro h
    rw [hpp]
    exact process_of_blocked (start s) h
  · intro e rest h1 h2
    have hng : ¬((start s).running ≥ (start s).concurrency ∨ (start s).paused = true) := by
      intro hcon
      rcases hcon with hcon | hcon
      · omega
      · rw [hp] at hcon
        simp at hcon
    have hstep : start (start s) =
        { start s with queue := rest, running := (start s).running + 1,
                       executing := e.id :: (start s).executing } := by
      rw [hpp]
      unfold process
      split
      · next hcon => exact absurd hcon hng
      · rw [h2]
    refine ⟨hstep, ?_⟩
    rw [hstep]
    intro hcontra
    have hr := congrArg QState.running hcontra
    simp at hr

/-- Witness for C9 amended, discharging the hypotheses of both directions:
a freshly constructed queue has nothing pending after one `start()` (second
call changes nothing), while with limit 2, paused and two pending entries
the first `start()` leaves capacity and a pending entry, so the second call
yields a different state. -/
theorem C9_amended_witness :
    start (start (mkQueue none none)) = start (mkQueue none none) ∧
    start (start (add (add (pause (mkQueue (some 2) none)) none) none)) ≠
      start (add (add (pause (mkQueue (some 2) none)) none) none) :=
  ⟨(C9_amended (mkQueue none none)).1 (Or.inr (by decide)),
   ((C9_amended (add (add (pause (mkQueue (some 2) none)) none) none)).2
      { id := 0, priority := none } [] (by decide) (by decide)).2⟩

/-- C10: the promise `add` returns never rejects with the queue-cleared
error: the `.catch` stage swallows exactly `QueueClearError`, so a cleared
entry's caller-visible outcome is fulfillment with `undefined`, and no
internal outcome ever maps to a caller-visible `QueueClearError` rejection. -/
theorem C10_cleared_promise_fulfills_undefined :
    catchClear (Outcome.rejected Err.clearErr) = Outcome.fulfilled Value.undef ∧
    ∀ o : Outcome, catchClear o ≠ Outcome.rejected Err.clearErr := by
  refine ⟨rfl, ?_⟩
  intro o
  cases o with
  | fulfilled v => simp [catchClear]
  | rejected e =>
    cases e with
    | clearErr => simp [catchClear, isQueueClearError]
    | taskErr n => simp [catchClear, isQueueClearError]

end AsyncQueue
